import Mathlib

/-!
Verification development for the resume-scoring repository.

The Python source is shallowly embedded over `List Char` (resume text) and
`String` (section names, level names, domain names).  Every definition below
is a direct transcription of the corresponding Python function in
`src/app.py` or `src/Temp/utils_enhanced.py`; the doc comment of each
definition names the source location it embeds.
-/

namespace ResumeScoring

/-! ### Character helpers (ASCII semantics of the Python string methods) -/

/-- ASCII whitespace, the characters Python `str.strip` / regex `\s` treat
as space. -/
def isSpaceChar (c : Char) : Bool :=
  c = ' ' || c = '\t' || c = '\n' || c = '\r' || c = '\x0b' || c = '\x0c'

/-- ASCII decimal digit, as tested by `c.isdigit()` / regex `\d`. -/
def isDigitChar (c : Char) : Bool :=
  '0' ≤ c && c ≤ '9'

/-- ASCII letter. -/
def isAsciiLetter (c : Char) : Bool :=
  ('a' ≤ c && c ≤ 'z') || ('A' ≤ c && c ≤ 'Z')

/-- ASCII word character, the `\w` class used by the `\b` boundary. -/
def isWordChar (c : Char) : Bool :=
  isAsciiLetter c || isDigitChar c || c = '_'

/-- ASCII lower-casing, as done by Python `str.lower()` on ASCII text. -/
def lowerChar (c : Char) : Char :=
  if 'A' ≤ c && c ≤ 'Z' then Char.ofNat (c.toNat + 32) else c

/-- ASCII upper-casing. -/
def upperChar (c : Char) : Char :=
  if 'a' ≤ c && c ≤ 'z' then Char.ofNat (c.toNat - 32) else c

/-- `str.lower()` over the whole text. -/
def lowerStr (s : List Char) : List Char :=
  s.map lowerChar

/-- Case-insensitive character equality (used for `(?i)` regex parts). -/
def ciEq (a b : Char) : Bool :=
  lowerChar a = lowerChar b

/-! ### List-of-characters string operations -/

/-- Python `str.strip()`: drop leading and trailing whitespace. -/
def stripStr (s : List Char) : List Char :=
  (s.dropWhile isSpaceChar).rdropWhile isSpaceChar

/-- Python `str.split('\n')`: split at every newline, keeping empty pieces.
Always returns at least one piece, like the Python method. -/
def splitNl (s : List Char) : List (List Char) :=
  s.splitOnP (· = '\n')

/-- Python `str.split()` with no argument: split on whitespace runs,
dropping empty pieces. -/
def splitWs (s : List Char) : List (List Char) :=
  (s.splitOnP isSpaceChar).filter (fun p => p ≠ [])

/-- Python `'\n'.join(lines)`. -/
def joinNl (ls : List (List Char)) : List Char :=
  match ls with
  | [] => []
  | [l] => l
  | l :: rest => l ++ '\n' :: joinNl rest

/-- Substring containment (`needle in haystack` on Python strings). -/
def isSubstring (needle haystack : List Char) : Bool :=
  needle.isPrefixOf haystack ||
    match haystack with
    | [] => false
    | _ :: t => isSubstring needle t

/-- Case-insensitive prefix test: `kw` matches at the front of `hay`. -/
def ciIsPrefix (kw hay : List Char) : Bool :=
  match kw, hay with
  | [], _ => true
  | _ :: _, [] => false
  | k :: ks, h :: hs => ciEq k h && ciIsPrefix ks hs

/-- Word-ness of an optional character; out-of-string counts as non-word,
exactly as regex `\b` treats the string edges. -/
def optWord (c : Option Char) : Bool :=
  match c with
  | none => false
  | some c => isWordChar c

/-- Regex `\b`: there is a word boundary between adjacent characters
`prev` and `next` iff exactly one of them is a word character. -/
def isBoundary (prev next : Option Char) : Bool :=
  optWord prev != optWord next

/-- `re.search(r'(?i)\b' ++ re.escape(kw) ++ r'\b', text)` succeeds at the
position where `hay` starts, given the character `prev` just before it. -/
def wordMatchHere (kw : List Char) (prev : Option Char) (hay : List Char) : Bool :=
  isBoundary prev kw.head? &&
  ciIsPrefix kw hay &&
  isBoundary kw.getLast? ((hay.drop kw.length).head?)

/-- Scan of `re.search(r'(?i)\b' ++ re.escape(kw) ++ r'\b', text)` over the
whole text: true iff the keyword occurs somewhere, case-insensitively, with
word boundaries on both sides.  `prev` is the character before the current
scan position. -/
def searchWordCIAux (kw : List Char) (prev : Option Char) (hay : List Char) : Bool :=
  wordMatchHere kw prev hay ||
    match hay with
    | [] => false
    | c :: rest => searchWordCIAux kw (some c) rest

/-- Entry point of the word-boundary keyword search used by
`analyze_resume_completeness` (src/app.py line 214). -/
def searchWordCI (kw : List Char) (hay : List Char) : Bool :=
  searchWordCIAux kw none hay

/-! ### SectionScorer: `analyze_resume_completeness` (src/app.py 136-248) -/

/-- Weights for experienced candidates (src/app.py lines 147-156).  The dict
literal in the source has exactly these eight keys, in this order. -/
def experienced_score_weights : List (String × Nat) :=
  [("Objective", 5), ("Experience", 55), ("Skills", 20), ("Education", 10),
   ("Certifications", 5), ("Achievements", 3), ("Projects", 2), ("Hobbies", 0)]

/-- Weights for entry-level candidates (src/app.py lines 159-168).  The dict
literal in the source has exactly these eight keys, in this order. -/
def entry_score_weights : List (String × Nat) :=
  [("Objective", 5), ("Education", 25), ("Skills", 25), ("Projects", 20),
   ("Internship", 15), ("Certifications", 5), ("Achievements", 5), ("Hobbies", 0)]

/-- The level-dependent profile selection (src/app.py lines 145-168). -/
def score_weights (cand_level : String) : List (String × Nat) :=
  if cand_level = "Experienced" then experienced_score_weights
  else entry_score_weights

/-- One entry of the `section_checks` table (src/app.py lines 171-207). -/
structure SectionCheck where
  name : String
  keywords : List String
  successMsg : String
  missingMsg : String
deriving DecidableEq

/-- The nine section checks, in source declaration order
(src/app.py lines 171-207). -/
def section_checks : List SectionCheck :=
  [⟨"Objective", ["Objective", "Summary", "Career Objective", "Professional Summary"],
    "You have added Objective/Summary",
    "Research shows a concise summary (~15 words) can boost interview chances. Consider adding one."⟩,
   ⟨"Education", ["Education", "School", "College", "University", "Bachelor", "Master", "Ph.D", "B.Tech", "M.Tech"],
    "You have added Education Details",
    "Add education details to showcase your qualifications - critical for entry-level positions."⟩,
   ⟨"Experience", ["Experience", "Work Experience", "Professional Experience", "Employment History"],
    "You have added Experience",
    "Recruiters spend 67% of their time on experience sections. Add detailed work history."⟩,
   ⟨"Internship", ["Internship", "Internships"],
    "You have added Internships",
    "For entry-level roles, internships significantly boost your chance of consideration."⟩,
   ⟨"Skills", ["Skills", "Technical Skills", "Core Competencies", "Key Skills"],
    "You have added Skills",
    "93% of hiring managers prefer skills-based screening. Add more relevant technical skills."⟩,
   ⟨"Hobbies", ["Hobbies", "Interests", "Activities"],
    "You have added your Hobbies",
    "While hobbies add personality, they rarely impact hiring decisions. Keep this section minimal."⟩,
   ⟨"Achievements", ["Achievements", "Awards", "Honors", "Recognition"],
    "You have added your Achievements",
    "Quantified achievements make your resume 40% more likely to get interviews."⟩,
   ⟨"Certifications", ["Certifications", "Certification", "Professional Certifications"],
    "You have added your Certifications",
    "Industry certifications increase interview chances by up to 20% in tech fields."⟩,
   ⟨"Projects", ["Projects", "Project", "Academic Projects", "Personal Projects"],
    "You have added your Projects",
    "Projects demonstrate practical skills - crucial for entry-level candidates with limited experience."⟩]

/-- The fixed section order of the table above. -/
def nine_sections : List String :=
  ["Objective", "Education", "Experience", "Internship", "Skills",
   "Hobbies", "Achievements", "Certifications", "Projects"]

/-- Presence test of one section: the inner keyword loop of
src/app.py lines 212-220 (the loop breaks at the first matching keyword,
so presence is an existential over the keyword list). -/
def sectionPresent (text : List Char) (c : SectionCheck) : Bool :=
  c.keywords.any (fun k => searchWordCI k.toList text)

/-- `score_weights.get(section_name, 0)` (src/app.py line 216). -/
def weightOf (cand_level : String) (name : String) : Nat :=
  ((score_weights cand_level).lookup name).getD 0

/-- The scoring loop of `analyze_resume_completeness`
(src/app.py lines 209-222, return at 248): accumulates the score and the
ordered `(present, message)` results list. -/
def analyze_resume_completeness (text : List Char) (cand_level : String) :
    Nat × List (Bool × String) :=
  section_checks.foldl
    (fun acc c =>
      if sectionPresent text c then
        let points := weightOf cand_level c.name
        (acc.1 + points,
         acc.2 ++ [(true, "[+] " ++ c.successMsg ++ " (+" ++ toString points ++ " points)")])
      else
        (acc.1, acc.2 ++ [(false, "[-] " ++ c.missingMsg)]))
    (0, [])

/-! ### ExperienceLevelClassifier: the level block of `main`
(src/app.py lines 280-302) -/

/-- Case-insensitive substring search, the effect of
`re.search(r'(?i)kw', text)` for a literal keyword `kw`. -/
def ciSubstring (needle hay : List Char) : Bool :=
  isSubstring (lowerStr needle) (lowerStr hay)

/-- One attempted match of the years regex
`(\d+)(?:\+)?\s*(?:year|yr)s?\s+(?:of\s+)?experience` at the current
position of the (already lower-cased) text.  Returns the captured number
and the rest of the text after the match.  Each quantifier is greedy; for
this pattern the greedy choice is the only one that can succeed, because
the character class following each quantifier is disjoint from the class
being repeated. -/
def parseYearsAt (l : List Char) : Option (Nat × List Char) :=
  let digits := l.takeWhile isDigitChar
  if digits = [] then none
  else
    let r1 := l.dropWhile isDigitChar
    let r2 := match r1 with
      | '+' :: t => t
      | _ => r1
    let r3 := r2.dropWhile isSpaceChar
    let yearTail : Option (List Char) :=
      if ("year".toList).isPrefixOf r3 then some (r3.drop 4)
      else if ("yr".toList).isPrefixOf r3 then some (r3.drop 2)
      else none
    match yearTail with
    | none => none
    | some r4 =>
      let r5 := match r4 with
        | 's' :: t => t
        | _ => r4
      match r5 with
      | c :: _ =>
        if isSpaceChar c then
          let r6 := r5.dropWhile isSpaceChar
          let r7 :=
            if ("of".toList).isPrefixOf r6 then
              match r6.drop 2 with
              | d :: _ => if isSpaceChar d then (r6.drop 2).dropWhile isSpaceChar else r6
              | [] => r6
            else r6
          if ("experience".toList).isPrefixOf r7 then
            some (digits.foldl (fun n c => n * 10 + (c.toNat - '0'.toNat)) 0,
                  r7.drop 10)
          else none
        else none
      | [] => none

/-- `re.findall` scan for the years regex: left-to-right, first match at the
earliest position, continuing after each match (non-overlapping).  The fuel
argument bounds the recursion; `findYears` supplies `l.length`, which
suffices because every match consumes at least its digit characters. -/
def findYearsAux (fuel : Nat) (l : List Char) : List Nat :=
  match fuel with
  | 0 => []
  | fuel + 1 =>
    match l with
    | [] => []
    | c :: t =>
      match parseYearsAt (c :: t) with
      | some (n, rest) => n :: findYearsAux fuel rest
      | none => findYearsAux fuel t

/-- `re.findall(r'(\d+)(?:\+)?\s*(?:year|yr)s?\s+(?:of\s+)?experience',
resume_text.lower())` with each capture converted by `int`
(src/app.py line 283). -/
def findYears (l : List Char) : List Nat :=
  findYearsAux l.length l

/-- `re.search(r'(?i)senior|lead|manager|director|head', resume_text)`
(src/app.py line 294). -/
def seniority_title_match (resume_text : List Char) : Bool :=
  ["senior", "lead", "manager", "director", "head"].any
    (fun k => ciSubstring k.toList resume_text)

/-- `re.search(r'(?i)internship', resume_text)` (src/app.py line 297). -/
def internship_match (resume_text : List Char) : Bool :=
  ciSubstring "internship".toList resume_text

/-- The candidate-level determination block of `main`
(src/app.py lines 280-302).  Note: the source consults only the resume
text; the page count extracted by the parsing library is never read in
this block (or anywhere else in src/app.py), and no branch produces
"NA". -/
def determine_cand_level (resume_text : List Char) : String :=
  if isSubstring "experience".toList (lowerStr resume_text) then
    let exp_years := findYears (lowerStr resume_text)
    if exp_years ≠ [] then
      let years := exp_years.foldl max 0
      if years ≥ 3 then "Experienced" else "Intermediate"
    else if seniority_title_match resume_text then "Experienced"
    else if internship_match resume_text then "Intermediate"
    else "Fresher"
  else "Fresher"

/-! ### FieldClassifier: the field-prediction block of `main`
(src/app.py lines 309-344) -/

/-- `ds_keyword` (src/app.py lines 310-311). -/
def ds_keyword : List String :=
  ["tensorflow", "keras", "pytorch", "machine learning", "deep learning", "flask",
   "streamlit", "data science", "data analysis", "pandas", "numpy", "matplotlib",
   "scikit-learn", "statistics"]

/-- `web_keyword` (src/app.py lines 313-314). -/
def web_keyword : List String :=
  ["react", "django", "node js", "nodejs", "react js", "php", "laravel", "magento",
   "wordpress", "javascript", "angular js", "c#", "asp.net", "flask", "html", "css",
   "bootstrap", "jquery"]

/-- `android_keyword` (src/app.py line 316). -/
def android_keyword : List String :=
  ["android", "android development", "flutter", "kotlin", "xml", "kivy", "java android"]

/-- `ios_keyword` (src/app.py line 318). -/
def ios_keyword : List String :=
  ["ios", "ios development", "swift", "cocoa", "cocoa touch", "xcode", "objective-c"]

/-- `uiux_keyword` (src/app.py lines 320-323). -/
def uiux_keyword : List String :=
  ["ux", "adobe xd", "figma", "zeplin", "balsamiq", "ui", "prototyping", "wireframes",
   "storyframes", "adobe photoshop", "photoshop", "editing", "adobe illustrator",
   "illustrator", "adobe after effects", "after effects", "adobe premier pro",
   "premiere pro", "adobe indesign", "indesign", "wireframe", "solid", "grasp",
   "user research", "user experience"]

/-- One domain's keyword-match count (src/app.py lines 335-339):
`sum(1 for keyword in kws if keyword in skills_lower or
any(keyword in skill.lower() for skill in skills))` where
`skills_lower = [skill.lower() for skill in skills]`. -/
def keywordCount (kws : List String) (skills : List (List Char)) : Nat :=
  (kws.filter (fun kw =>
    (skills.map lowerStr).contains kw.toList ||
    skills.any (fun s => isSubstring kw.toList (lowerStr s)))).length

/-- The `field_scores` dict of src/app.py lines 334-340, in insertion
order. -/
def field_scores (skills : List (List Char)) : List (String × Nat) :=
  [("Data Science", keywordCount ds_keyword skills),
   ("Web Development", keywordCount web_keyword skills),
   ("Android Development", keywordCount android_keyword skills),
   ("IOS Development", keywordCount ios_keyword skills),
   ("UI-UX Development", keywordCount uiux_keyword skills)]

/-- Python `max(items, key=lambda x: x[1])` over a nonempty list: the fold
keeps the current best and replaces it only on a strictly greater key, so
the first item attaining the maximum wins. -/
def pyMaxBySnd (h : String × Nat) (t : List (String × Nat)) : String × Nat :=
  t.foldl (fun best x => if x.2 > best.2 then x else best) h

/-- The field selection of src/app.py lines 343-344: `none` models the
`else` branch ("couldn't determine a specific tech field") taken when
`any(field_scores.values())` is false, i.e. when every count is zero. -/
def reco_field (skills : List (List Char)) : Option String :=
  let fs := field_scores skills
  if fs.any (fun p => p.2 ≠ 0) then
    match fs with
    | [] => none
    | h :: t => some (pyMaxBySnd h t).1
  else none

/-- Modelled from the spec (refinement reference for the tie-break claim):
"the domain declared earliest in the fixed table order wins ties
(including an all-zero tie, which instead routes to the no-determination
branch)".  Takes the first entry whose count equals the maximal count. -/
def spec_earliest_argmax (l : List (String × Nat)) : Option String :=
  if l.all (fun p => p.2 = 0) then none
  else
    let m := (l.map Prod.snd).foldl max 0
    (l.find? (fun p => p.2 = m)).map Prod.fst

/-! ### ResultValidator: `validate_extracted_data`
(src/Temp/utils_enhanced.py lines 133-168) -/

/-- The record fields that `validate_extracted_data` touches.  Python's
falsiness of `data.get('name')` / `data.get('skills')` is modelled by the
empty string / empty list. -/
structure ExtractedData where
  name : List Char
  skills : List (List Char)
deriving DecidableEq

/-- `name_prefixes = ['name:', 'name', 'full name:', 'full name']`
(src/Temp/utils_enhanced.py line 149). -/
def namePrefixes : List (List Char) :=
  ["name:", "name", "full name:", "full name"].map String.toList

/-- `name_suffixes = [', ph.d', ', mba', ', m.s.', ', b.s.', ', b.a.']`
(src/Temp/utils_enhanced.py line 155). -/
def nameSuffixes : List (List Char) :=
  [", ph.d", ", mba", ", m.s.", ", b.s.", ", b.a."].map String.toList

/-- The name-cleaning part of `validate_extracted_data`
(src/Temp/utils_enhanced.py lines 146-160): each prefix is tested once, in
order, against the current name's lower-casing and stripped off at most
once; then likewise for each suffix. -/
def clean_name (name0 : List Char) : List Char :=
  let n1 := namePrefixes.foldl
    (fun n p => if p.isPrefixOf (lowerStr n) then stripStr (n.drop p.length) else n)
    name0
  nameSuffixes.foldl
    (fun n s => if s.isSuffixOf (lowerStr n) then stripStr (n.take (n.length - s.length)) else n)
    n1

/-- `list(set([skill.strip() for skill in skills]))`
(src/Temp/utils_enhanced.py line 165).  Python's set gives no ordering
guarantee; the embedding picks the deterministic `List.dedup` order. -/
def pyDedupStrip (skills : List (List Char)) : List (List Char) :=
  (skills.map stripStr).dedup

/-- `validate_extracted_data` (src/Temp/utils_enhanced.py lines 133-168). -/
def validate_extracted_data (data : ExtractedData) : ExtractedData :=
  { name := if data.name ≠ [] then clean_name data.name else data.name
    skills := if data.skills ≠ [] then pyDedupStrip data.skills else data.skills }

/-! ### NameExtractor: `extract_name` (src/app.py lines 47-123)

The seven header regexes are embedded as explicit matching functions.  All
of them carry an `(?i)` flag, so `[A-Z]` and `[a-z]` both mean "any ASCII
letter"; a name word of `[A-Z][a-z]+` is therefore a maximal run of at
least two letters, and of `[A-Z]+` a maximal run of at least one letter.
Greedy quantifiers are resolved the way the Python engine does: a maximal
word run is forced (no continuation of any pattern may start with a
letter), and the `{1,2}` repetition prefers three words, falling back to
two. -/

/-- The separator class `[ \'-]` of the name patterns. -/
def isSepChar (c : Char) : Bool :=
  c = ' ' || c = Char.ofNat 39 || c = '-'

/-- `[A-Z][a-z]+` under `(?i)` (with `minLen = 2`), or `[A-Z]+` under
`(?i)` (with `minLen = 1`): a maximal letter run of at least `minLen`. -/
def parseWordMin (minLen : Nat) (l : List Char) : Option (List Char × List Char) :=
  let w := l.takeWhile isAsciiLetter
  if minLen ≤ w.length then some (w, l.drop w.length) else none

/-- One `[ \'-]`-separator followed by a word. -/
def parseSepWord (minLen : Nat) (l : List Char) : Option (Char × List Char × List Char) :=
  match l with
  | [] => none
  | c :: rest =>
    if isSepChar c then
      match parseWordMin minLen rest with
      | some (w, r) => some (c, w, r)
      | none => none
    else none

/-- The candidate parses of the group
`[A-Z][a-z]+(?:[ \'-][A-Z][a-z]+){1,2}` at the start of `l`, as
`(matched core, rest)` pairs in the engine's backtracking order:
three words first, then two. -/
def nameCoreCands (minLen : Nat) (l : List Char) : List (List Char × List Char) :=
  match parseWordMin minLen l with
  | none => []
  | some (w1, r1) =>
    match parseSepWord minLen r1 with
    | none => []
    | some (s1, w2, r2) =>
      let two := (w1 ++ s1 :: w2, r2)
      match parseSepWord minLen r2 with
      | none => [two]
      | some (s2, w3, r3) => (w1 ++ s1 :: w2 ++ s2 :: w3, r3) :: [two]

/-- Match of `^(core)\s*$` against one line (patterns 1 and 7 of
src/app.py lines 54 and 72, with `^`/`$` in MULTILINE mode): the rest of
the line after the core must be whitespace. -/
def matchNameLineTrailWs (minLen : Nat) (line : List Char) : Option (List Char) :=
  ((nameCoreCands minLen line).find? (fun cr => cr.2.all isSpaceChar)).map Prod.fst

/-- Scan a multiline `^...` pattern over the header lines: the earliest
matching line wins, as with `re.search`. -/
def scanLines (f : List Char → Option (List Char)) : List (List Char) → Option (List Char)
  | [] => none
  | l :: t =>
    match f l with
    | some core => some core
    | none => scanLines f t

/-- `(?i)Name\s*[:-]\s*(core)` matched at the current position
(patterns 2 and 3 of src/app.py lines 57 and 60; `sep` is the `:` or `-`
that follows the label). -/
def matchLabeledNameAt (sep : Char) (l : List Char) : Option (List Char) :=
  if ciIsPrefix "Name".toList l then
    let r1 := (l.drop 4).dropWhile isSpaceChar
    match r1 with
    | [] => none
    | c :: r2 =>
      if c = sep then
        match nameCoreCands 2 (r2.dropWhile isSpaceChar) with
        | cand :: _ => some cand.1
        | [] => none
      else none
  else none

/-- `re.search` scanning for an unanchored pattern: try every position from
left to right and return the first match. -/
def scanText (f : List Char → Option (List Char)) : List Char → Option (List Char)
  | [] => f []
  | c :: t =>
    match f (c :: t) with
    | some core => some core
    | none => scanText f t

/-- The contact keywords of pattern 4 (src/app.py line 63). -/
def contact_keywords : List String :=
  ["Address", "Email", "Phone", "Tel", "Contact", "LinkedIn", "Github"]

/-- Does this line start with one of the contact keywords
(case-insensitively, the pattern carries `(?i)`)? -/
def lineStartsWithContact (line : List Char) : Bool :=
  contact_keywords.any (fun k => ciIsPrefix k.toList line)

/-- Continuation `(?:[^\n]+\n)*(?:Address|…)` of pattern 4 after the blank
run: the contact keyword must sit at the start of a later line, with every
line in between non-empty. -/
def p4NonemptyThenContact : List (List Char) → Bool
  | [] => false
  | l :: t => lineStartsWithContact l || (decide (l ≠ []) && p4NonemptyThenContact t)

/-- Continuation `\s*\n+(?:[^\n]+\n)*(?:Address|…)` of pattern 4, starting
at the line after the name line: first a (possibly empty) run of
whitespace-only lines consumed by `\s*\n+`, then non-empty lines consumed
by `[^\n]+\n`, then a line starting with a contact keyword. -/
def p4WsThenContact : List (List Char) → Bool
  | [] => false
  | l :: t =>
    lineStartsWithContact l ||
    (l.all isSpaceChar && p4WsThenContact t) ||
    (decide (l ≠ []) && p4NonemptyThenContact t)

/-- Pattern 4 (src/app.py line 63): a name line followed, after blank
lines and/or complete non-empty lines, by a line that starts with contact
information. -/
def p4Scan : List (List Char) → Option (List Char)
  | [] => none
  | l :: t =>
    match matchNameLineTrailWs 2 l with
    | some core => if p4WsThenContact t then some core else p4Scan t
    | none => p4Scan t

/-- The trailing character class `[A-Za-z. ]` of pattern 5. -/
def inDesignationClass (c : Char) : Bool :=
  isAsciiLetter c || c = '.' || c = ' '

/-- `\s*[A-Za-z. ]+$` against the rest of a line: some whitespace, then at
least one class character, reaching the end of the line. -/
def wsStarClsPlus : List Char → Bool
  | [] => false
  | c :: t =>
    (inDesignationClass c && t.all inDesignationClass) ||
    (isSpaceChar c && wsStarClsPlus t)

/-- `\s*[,|]\s*[A-Za-z. ]+$` against the rest of a line. -/
def sepThenDesignation : List Char → Bool
  | [] => false
  | c :: t =>
    ((c = ',' || c = '|') && wsStarClsPlus t) ||
    (isSpaceChar c && sepThenDesignation t)

/-- Pattern 5 (src/app.py line 66): `^(core)(?:\s*[,|]\s*[A-Za-z. ]+)?$`
against one line. -/
def matchP5Line (line : List Char) : Option (List Char) :=
  ((nameCoreCands 2 line).find?
    (fun cr => decide (cr.2 = []) || sepThenDesignation cr.2)).map Prod.fst

/-- Pattern 6 (src/app.py line 69): `^\s*\n(core)\s*\n` — a whitespace-only
line, then a name line, which must itself be followed by a newline (i.e.
must not be the last header line). -/
def p6Scan : List (List Char) → Option (List Char)
  | a :: b :: rest =>
    (if a.all isSpaceChar then
      match matchNameLineTrailWs 2 b with
      | some core => if rest ≠ [] then some core else p6Scan (b :: rest)
      | none => p6Scan (b :: rest)
    else p6Scan (b :: rest))
  | _ => none

/-- Method 1 of `extract_name` (src/app.py lines 52-86): one candidate per
pattern, in declared pattern order, each `group(1).strip()`-ed. -/
def method1_candidates (first_10_lines : List (List Char)) (header_text : List Char) :
    List (List Char) :=
  ([scanLines (matchNameLineTrailWs 2) first_10_lines,
    scanText (matchLabeledNameAt ':') header_text,
    scanText (matchLabeledNameAt '-') header_text,
    p4Scan first_10_lines,
    scanLines matchP5Line first_10_lines,
    p6Scan first_10_lines,
    scanLines (matchNameLineTrailWs 1) first_10_lines].map
      (Option.map stripStr)).reduceOption

/-- Uppercase ASCII letter. -/
def isUpperChar (c : Char) : Bool :=
  'A' ≤ c && c ≤ 'Z'

/-- A maximal uppercase run of at least one letter. -/
def parseCapsWord (l : List Char) : Option (List Char) :=
  let w := l.takeWhile isUpperChar
  if w ≠ [] then some (l.drop w.length) else none

/-- `\s+` followed by an uppercase word. -/
def parseWsCapsWord (l : List Char) : Option (List Char) :=
  match l with
  | [] => none
  | c :: _ =>
    if isSpaceChar c then parseCapsWord (l.dropWhile isSpaceChar) else none

/-- `re.match(r'^[A-Z]+(?:\s+[A-Z]+){1,2}$', line)` — the case-sensitive
all-caps test of method 2 (src/app.py line 92). -/
def allCapsNameLine (line : List Char) : Bool :=
  match parseCapsWord line with
  | none => false
  | some r1 =>
    match parseWsCapsWord r1 with
    | none => false
    | some r2 =>
      decide (r2 = []) ||
        (match parseWsCapsWord r2 with
         | some r3 => decide (r3 = [])
         | none => false)

/-- Python `str.title()` on ASCII text: the first letter of every letter
run is upper-cased, the following letters lower-cased. -/
def titleCaseAux : Bool → List Char → List Char
  | _, [] => []
  | prevAlpha, c :: t =>
    if isAsciiLetter c then
      (if prevAlpha then lowerChar c else upperChar c) :: titleCaseAux true t
    else c :: titleCaseAux false t

/-- `line.title()` (src/app.py line 93). -/
def titleCase (l : List Char) : List Char :=
  titleCaseAux false l

/-- Method 2 of `extract_name` (src/app.py lines 89-93): all-caps lines
among the first five header lines, converted to title case. -/
def method2_candidates (first_10_lines : List (List Char)) : List (List Char) :=
  (first_10_lines.take 5).filterMap (fun line =>
    let l := stripStr line
    if allCapsNameLine l && decide (3 < l.length) then some (titleCase l) else none)

/-- The stripped first header line (src/app.py lines 97 and 119). -/
def first_line_of (resume_text : List Char) : List Char :=
  stripStr (((splitNl (stripStr resume_text)).take 10).headD [])

/-- Method 3 of `extract_name` (src/app.py lines 96-99): the first line
itself, if it is short, digit-free and has no `@`. -/
def method3_candidates (resume_text : List Char) : List (List Char) :=
  let first_line := first_line_of resume_text
  if first_line ≠ [] ∧ (splitWs first_line).length ≤ 4 ∧
      ¬ first_line.any isDigitChar ∧ ¬ first_line.contains '@' then
    [first_line]
  else []

/-- All name candidates in the order the source accumulates them
(src/app.py lines 80-99). -/
def name_candidates (resume_text : List Char) : List (List Char) :=
  let first_10_lines := (splitNl (stripStr resume_text)).take 10
  let header_text := joinNl first_10_lines
  method1_candidates first_10_lines header_text ++
    method2_candidates first_10_lines ++
    method3_candidates resume_text

/-- `skip_indicators` (src/app.py lines 107-108). -/
def skip_indicators : List String :=
  ["resume", "cv", "curriculum", "vitae", "address", "email",
   "phone", "tel", "contact", "@", "www", "http", "summary"]

/-- The candidate validation of src/app.py lines 103-111: non-empty, at
least two whitespace-separated tokens, more than three characters, and no
blocklisted substring in the lower-cased candidate. -/
def validName (name : List Char) : Bool :=
  decide (name ≠ []) && decide (2 ≤ (splitWs name).length) && decide (3 < name.length) &&
  !(skip_indicators.any (fun ind => isSubstring ind.toList (lowerStr name)))

/-- `valid_names` (src/app.py lines 102-111). -/
def valid_names (resume_text : List Char) : List (List Char) :=
  (name_candidates resume_text).filter validName

/-- The final fallback guard of src/app.py lines 118-121. -/
def fallback_ok (resume_text : List Char) : Bool :=
  let first_line := first_line_of resume_text
  decide (first_line ≠ []) && decide ((splitWs first_line).length ≤ 4) &&
  !first_line.contains '@' && !first_line.any isDigitChar

/-- `extract_name` (src/app.py lines 47-123): first surviving validated
candidate, else the guarded first-line fallback, else the sentinel. -/
def extract_name (resume_text : List Char) : List Char :=
  match valid_names resume_text with
  | n :: _ => n
  | [] =>
    if fallback_ok resume_text then first_line_of resume_text
    else "Name not found".toList

end ResumeScoring


namespace ResumeScoring

/-- C5: The sum of section weights equals exactly 100 for both the
Experienced weight profile and the entry-level weight profile used by the
section scorer: whatever candidate level is passed, the selected profile's
weights sum to 100. -/
theorem C5_weight_profiles_sum_100 (cand_level : String) :
    ((score_weights cand_level).map Prod.snd).sum = 100 := by
  unfold score_weights
  split <;> decide

/-- C9 counterexample: the claim "each of the two weight profiles assigns
an integer weight to exactly nine sections" is false — the Experienced
profile has no `Internship` entry, the entry profile has no `Experience`
entry, and both dicts have exactly eight keys. -/
theorem C9_counterexample :
    experienced_score_weights.lookup "Internship" = none ∧
    entry_score_weights.lookup "Experience" = none ∧
    experienced_score_weights.length = 8 ∧ entry_score_weights.length = 8 ∧
    ¬ (nine_sections.all (fun s =>
        (experienced_score_weights.lookup s).isSome &&
        (entry_score_weights.lookup s).isSome)) := by
  decide

/-- C9 amended: each profile assigns an integer weight to exactly eight of
the nine sections — the Experienced profile omits `Internship` and the
entry profile omits `Experience`; the scorer's lookup defaults a missing
section to weight 0, so every scored section still receives an integer
weight. -/
theorem C9_amended :
    experienced_score_weights.map Prod.fst =
      ["Objective", "Experience", "Skills", "Education", "Certifications",
       "Achievements", "Projects", "Hobbies"] ∧
    entry_score_weights.map Prod.fst =
      ["Objective", "Education", "Skills", "Projects", "Internship",
       "Certifications", "Achievements", "Hobbies"] ∧
    weightOf "Experienced" "Internship" = 0 ∧
    weightOf "Fresher" "Experience" = 0 := by
  decide

/-- C1 counterexample: the claim "page_count = 0 forces level NA" is false
on the code — the level classifier in `main` never reads the page count
and never produces "NA"; in particular a document with zero pages and
empty text is classified "Fresher". -/
theorem C1_counterexample :
    determine_cand_level "".toList = "Fresher" ∧
    determine_cand_level "".toList ≠ "NA" := by
  decide

/-- C1 amended: the classifier ignores `page_count` entirely; for every
text (hence for every page count, including 0) the result is one of
"Fresher", "Intermediate", "Experienced" — never "NA". -/
theorem C1_amended_never_NA (resume_text : List Char) :
    determine_cand_level resume_text = "Fresher" ∨
    determine_cand_level resume_text = "Intermediate" ∨
    determine_cand_level resume_text = "Experienced" := by
  unfold determine_cand_level
  dsimp only
  repeat' split
  all_goals simp

/-- C4 counterexample: the claim "a bare mention of experience yields
level Experienced" is false on the code — the text "experience" mentions
experience, matches no year phrase, no seniority title and no internship,
yet the classifier returns "Fresher" (the `cand_level = "Fresher"` default
at src/app.py line 285 is never overwritten in this case). -/
theorem C4_counterexample :
    isSubstring "experience".toList (lowerStr "experience".toList) = true ∧
    findYears (lowerStr "experience".toList) = [] ∧
    seniority_title_match "experience".toList = false ∧
    internship_match "experience".toList = false ∧
    determine_cand_level "experience".toList = "Fresher" := by
  decide

/-- C4 amended: for every text that mentions "experience" but matches no
"N year(s) of experience" phrase, no seniority title and no internship
mention, the classifier returns "Fresher" (not "Experienced"). -/
theorem C4_amended_mention_only_is_fresher (resume_text : List Char)
    (hmention : isSubstring "experience".toList (lowerStr resume_text) = true)
    (hyears : findYears (lowerStr resume_text) = [])
    (htitle : seniority_title_match resume_text = false)
    (hintern : internship_match resume_text = false) :
    determine_cand_level resume_text = "Fresher" := by
  unfold determine_cand_level
  simp [hmention, hyears, htitle, hintern]

/-- Witness for the amended C4 at the concrete text "experience". -/
theorem C4_amended_witness :
    determine_cand_level "experience".toList = "Fresher" :=
  C4_amended_mention_only_is_fresher "experience".toList
    (by decide) (by decide) (by decide) (by decide)

/-- C7: for the text "Education\n5 years of experience" the classifier
returns Experienced, and the Education finding (the second entry of the
results list) is positive with the Experienced-profile weight 10 — not the
entry-profile weight 25. -/
theorem C7_scenario_c :
    determine_cand_level "Education\n5 years of experience".toList = "Experienced" ∧
    (analyze_resume_completeness "Education\n5 years of experience".toList
        (determine_cand_level "Education\n5 years of experience".toList)).2.get? 1 =
      some (true, "[+] You have added Education Details (+10 points)") ∧
    weightOf "Experienced" "Education" = 10 ∧
    weightOf "Fresher" "Education" = 25 := by
  decide

end ResumeScoring

namespace ResumeScoring

set_option maxHeartbeats 1000000 in
/-- Helper for C8: over a five-entry score table with arbitrary counts,
Python's `max(items, key=...)` selection guarded by `any(values)` equals
the spec's earliest-maximum rule. -/
theorem pyMax5_spec (n1 n2 n3 n4 n5 : String) (a b c d e : Nat) :
    (if ([(n1, a), (n2, b), (n3, c), (n4, d), (n5, e)] : List (String × Nat)).any
        (fun p => p.2 ≠ 0) then
      some (pyMaxBySnd (n1, a) [(n2, b), (n3, c), (n4, d), (n5, e)]).1
    else none)
      = spec_earliest_argmax [(n1, a), (n2, b), (n3, c), (n4, d), (n5, e)] := by
  simp only [spec_earliest_argmax, pyMaxBySnd, List.any_cons, List.any_nil,
    List.all_cons, List.all_nil, List.map_cons, List.map_nil, List.foldl_cons,
    List.foldl_nil, List.find?, Bool.or_eq_true, Bool.and_eq_true,
    decide_eq_true_eq, ne_eq, Bool.or_false, Bool.and_true]
  repeat' split
  all_goals (try simp only [decide_eq_true_eq, decide_eq_false_iff_not,
    Option.map_some, Option.map_none, Option.some.injEq, not_or, not_not] at *)
  all_goals (first | rfl | omega)

end ResumeScoring

namespace ResumeScoring

/-- C8: `FieldClassifier.classify` is deterministic — the same skills give
the same result — and refines the spec's tie-break rule: whenever several
domains share the maximal keyword-match count, the domain declared
earliest in the fixed table order (Data Science, Web Development, Android
Development, IOS Development, UI-UX Development) is selected, while an
all-zero tie routes to the no-determination branch (`none`) rather than
any domain. -/
theorem C8_field_classifier_deterministic_earliest_tie (skills : List (List Char)) :
    reco_field skills = reco_field skills ∧
    reco_field skills = spec_earliest_argmax (field_scores skills) := by
  refine ⟨rfl, ?_⟩
  have h := pyMax5_spec "Data Science" "Web Development" "Android Development"
    "IOS Development" "UI-UX Development"
    (keywordCount ds_keyword skills) (keywordCount web_keyword skills)
    (keywordCount android_keyword skills) (keywordCount ios_keyword skills)
    (keywordCount uiux_keyword skills)
  exact h

end ResumeScoring

namespace ResumeScoring

/-- `str.strip()` is idempotent. -/
theorem stripStr_idem (s : List Char) : stripStr (stripStr s) = stripStr s := by
  unfold stripStr
  have h1 : ((s.dropWhile isSpaceChar).rdropWhile isSpaceChar).dropWhile isSpaceChar
      = (s.dropWhile isSpaceChar).rdropWhile isSpaceChar := by
    obtain ⟨t, ht⟩ := List.rdropWhile_prefix (l := s.dropWhile isSpaceChar) (p := isSpaceChar)
    cases hrd : (s.dropWhile isSpaceChar).rdropWhile isSpaceChar with
    | nil => simp
    | cons a tl =>
      have hem : s.dropWhile isSpaceChar = a :: (tl ++ t) := by
        rw [← ht, hrd]
        simp
      have hh := List.head?_dropWhile_not isSpaceChar s
      rw [hem] at hh
      simp only [List.head?_cons] at hh
      simp [List.dropWhile_cons, hh]
  rw [h1, List.rdropWhile_idempotent]

/-- The skills clean-up `list(set(skill.strip() for skill in skills))` is
idempotent. -/
theorem pyDedupStrip_idem (xs : List (List Char)) :
    pyDedupStrip (pyDedupStrip xs) = pyDedupStrip xs := by
  unfold pyDedupStrip
  have h : ((xs.map stripStr).dedup).map stripStr = (xs.map stripStr).dedup := by
    have hmem : ∀ y ∈ (xs.map stripStr).dedup, stripStr y = y := by
      intro y hy
      rcases List.mem_map.mp (List.mem_dedup.mp hy) with ⟨z, _, rfl⟩
      exact stripStr_idem z
    calc ((xs.map stripStr).dedup).map stripStr
        = ((xs.map stripStr).dedup).map id := List.map_congr_left hmem
      _ = (xs.map stripStr).dedup := List.map_id _
  rw [h, List.dedup_idem]

/-- C3 counterexample: `validate_extracted_data` is not idempotent â for
the record with name "Name Named Guy" the first validation strips the
prefix "name" once, leaving "Named Guy", and a second validation strips
"name" again, leaving "d Guy". -/
theorem C3_counterexample :
    validate_extracted_data (validate_extracted_data ⟨"Name Named Guy".toList, []⟩) ≠
      validate_extracted_data ⟨"Name Named Guy".toList, []⟩ := by
  decide

/-- C3 amended: `validate_extracted_data` is idempotent on every record
whose once-validated name is a fixed point of the name-cleaning step â in
particular whenever the cleaned name does not again start with a known
prefix or end with a known suffix; the skill deduplication component is
idempotent unconditionally. -/
theorem C3_amended_idempotent_on_clean_names (r : ExtractedData)
    (h : clean_name (validate_extracted_data r).name = (validate_extracted_data r).name) :
    validate_extracted_data (validate_extracted_data r) = validate_extracted_data r := by
  cases r with
  | mk name skills =>
    unfold validate_extracted_data at h ⊢
    dsimp only at h ⊢
    simp only [ExtractedData.mk.injEq]
    refine ⟨?_, ?_⟩
    · generalize hX : (if name ≠ [] then clean_name name else name) = X at h ⊢
      split
      · exact h
      · rfl
    · by_cases hs : skills = []
      · subst hs
        simp
      · rw [if_pos hs]
        split
        · exact pyDedupStrip_idem skills
        · rfl

end ResumeScoring

namespace ResumeScoring

/-- Witness for the amended C3 at a concrete already-clean record. -/
theorem C3_amended_witness :
    validate_extracted_data (validate_extracted_data
        ⟨"John Doe".toList, ["a ".toList, "a".toList, "b".toList]⟩) =
      validate_extracted_data ⟨"John Doe".toList, ["a ".toList, "a".toList, "b".toList]⟩ :=
  C3_amended_idempotent_on_clean_names
    ⟨"John Doe".toList, ["a ".toList, "a".toList, "b".toList]⟩ (by decide)

/-- The scoring loop of `analyze_resume_completeness`, characterized in
closed form: the final score is the initial score plus the weights of the
present sections, and the results list appends one finding per check, in
order. -/
theorem analyze_foldl_spec (text : List Char) (cand_level : String)
    (checks : List SectionCheck) (s0 : Nat) (r0 : List (Bool × String)) :
    checks.foldl
      (fun acc c =>
        if sectionPresent text c then
          let points := weightOf cand_level c.name
          (acc.1 + points,
           acc.2 ++ [(true, "[+] " ++ c.successMsg ++ " (+" ++ toString points ++ " points)")])
        else
          (acc.1, acc.2 ++ [(false, "[-] " ++ c.missingMsg)])) (s0, r0)
      = (s0 + ((checks.filter (fun c => sectionPresent text c)).map
            (fun c => weightOf cand_level c.name)).sum,
         r0 ++ checks.map (fun c =>
           if sectionPresent text c then
             (true, "[+] " ++ c.successMsg ++ " (+" ++
               toString (weightOf cand_level c.name) ++ " points)")
           else (false, "[-] " ++ c.missingMsg))) := by
  induction checks generalizing s0 r0 with
  | nil => simp
  | cons c cs ih =>
    by_cases hp : sectionPresent text c
    · simp only [List.foldl_cons, List.filter_cons, List.map_cons, hp, if_true,
        List.sum_cons, ite_true]
      rw [ih]
      refine Prod.ext ?_ ?_ <;> simp <;> omega
    · simp only [List.foldl_cons, List.filter_cons, List.map_cons, hp, if_false,
        Bool.false_eq_true, ite_false]
      rw [ih]
      refine Prod.ext ?_ ?_ <;> simp

end ResumeScoring

namespace ResumeScoring

/-- Restatement of `analyze_resume_completeness` through the closed form
of its loop. -/
theorem analyze_eq (text : List Char) (cand_level : String) :
    analyze_resume_completeness text cand_level
      = (((section_checks.filter (fun c => sectionPresent text c)).map
            (fun c => weightOf cand_level c.name)).sum,
         section_checks.map (fun c =>
           if sectionPresent text c then
             (true, "[+] " ++ c.successMsg ++ " (+" ++
               toString (weightOf cand_level c.name) ++ " points)")
           else (false, "[-] " ++ c.missingMsg))) := by
  unfold analyze_resume_completeness
  rw [analyze_foldl_spec]
  simp

/-- For either profile the total weight reachable over the nine checks is
exactly 100. -/
theorem total_weight_100 (cand_level : String) :
    (section_checks.map (fun c => weightOf cand_level c.name)).sum = 100 := by
  unfold weightOf score_weights
  split <;> decide

/-- C10: for every text and level the scorer emits exactly nine findings,
one per section in the fixed order Objective, Education, Experience,
Internship, Skills, Hobbies, Achievements, Certifications, Projects (the
k-th finding's flag is exactly the k-th section's presence test); each
section's weight is counted at most once, so the score equals the sum of
the weights of the present sections and is at most 100. -/
theorem C10_scorer_shape_and_bounds (text : List Char) (cand_level : String) :
    (analyze_resume_completeness text cand_level).2.length = 9 ∧
    (analyze_resume_completeness text cand_level).2.map Prod.fst =
      section_checks.map (fun c => sectionPresent text c) ∧
    section_checks.map SectionCheck.name = nine_sections ∧
    (analyze_resume_completeness text cand_level).1 =
      ((section_checks.filter (fun c => sectionPresent text c)).map
        (fun c => weightOf cand_level c.name)).sum ∧
    (analyze_resume_completeness text cand_level).1 ≤ 100 := by
  rw [analyze_eq]
  refine ⟨?_, ?_, by decide, rfl, ?_⟩
  · simp [section_checks]
  · rw [List.map_map]
    refine List.map_congr_left ?_
    intro c _
    by_cases hp : sectionPresent text c <;> simp [hp]
  · calc ((section_checks.filter (fun c => sectionPresent text c)).map
        (fun c => weightOf cand_level c.name)).sum
        ≤ (section_checks.map (fun c => weightOf cand_level c.name)).sum := by
          refine List.Sublist.sum_le_sum ?_ ?_
          · exact (List.filter_sublist section_checks).map _
          · intro a _
            exact Nat.zero_le a
      _ = 100 := total_weight_100 cand_level

end ResumeScoring

namespace ResumeScoring

/-- If exactly one element `c` of a duplicate-free list flips from absent
(under `p1`) to present (under `p2`) and all others keep their status, the
filtered weight sum grows by exactly `w c`. -/
theorem sum_filter_flip {α : Type} [DecidableEq α] (w : α → Nat) (p1 p2 : α → Bool)
    (l : List α) (c : α) (hmem : c ∈ l) (hnd : l.Nodup)
    (h1 : p1 c = false) (h2 : p2 c = true)
    (hoth : ∀ x ∈ l, x ≠ c → p1 x = p2 x) :
    ((l.filter p2).map w).sum = ((l.filter p1).map w).sum + w c := by
  induction l with
  | nil => cases hmem
  | cons x xs ih =>
    rcases List.mem_cons.mp hmem with rfl | hmem2
    · have hxs : ∀ y ∈ xs, p1 y = p2 y := by
        intro y hy
        have hyne : y ≠ c := by
          intro he
          subst he
          exact (List.nodup_cons.mp hnd).1 hy
        exact hoth y (List.mem_cons_of_mem _ hy) hyne
      have hfeq : xs.filter p1 = xs.filter p2 := List.filter_congr hxs
      simp only [List.filter_cons, h1, h2, ite_true, ite_false, Bool.false_eq_true,
        List.map_cons, List.sum_cons, hfeq]
      omega
    · have hx : x ≠ c := by
        rintro rfl
        exact (List.nodup_cons.mp hnd).1 hmem2
      have hpx := hoth x (List.mem_cons_self _ _) hx
      have ih2 := ih hmem2 (List.nodup_cons.mp hnd).2
        (fun y hy hyne => hoth y (List.mem_cons_of_mem _ hy) hyne)
      by_cases hcase : p1 x
      · have hb : p2 x = true := by rw [← hpx]; exact hcase
        simp only [List.filter_cons, hcase, hb, ite_true, List.map_cons,
          List.sum_cons, ih2]
        omega
      · have hb : p2 x = false := by rw [← hpx]; simpa using hcase
        simp only [List.filter_cons, hb, ite_false, Bool.false_eq_true]
        simp only [Bool.not_eq_true] at hcase
        simp only [hcase, ite_false, Bool.false_eq_true, ih2]

/-- C6: if text `t2` is `t1` with a keyword of a previously-unmatched
section `c` made to match (the presence test of `c` flips from false to
true) while every other section's presence is unchanged, then for the same
level the score grows by exactly `c`'s weight — and in particular never
decreases. -/
theorem C6_score_monotone_insertion (t1 t2 : List Char) (cand_level : String)
    (c : SectionCheck) (hc : c ∈ section_checks)
    (h1 : sectionPresent t1 c = false) (h2 : sectionPresent t2 c = true)
    (hoth : ∀ x ∈ section_checks, x ≠ c →
      sectionPresent t1 x = sectionPresent t2 x) :
    (analyze_resume_completeness t2 cand_level).1 =
      (analyze_resume_completeness t1 cand_level).1 + weightOf cand_level c.name ∧
    (analyze_resume_completeness t1 cand_level).1 ≤
      (analyze_resume_completeness t2 cand_level).1 := by
  have hnd : section_checks.Nodup := by decide
  have hsum := sum_filter_flip (fun c => weightOf cand_level c.name)
    (fun x => sectionPresent t1 x) (fun x => sectionPresent t2 x)
    section_checks c hc hnd h1 h2 hoth
  rw [analyze_eq, analyze_eq]
  dsimp only
  constructor
  · exact hsum
  · rw [hsum]
    exact Nat.le_add_right _ _

/-- Witness for C6: inserting the previously-absent Skills keyword into
the one-section text "Education" raises the entry-level score from 25 to
50 = 25 + 25. -/
theorem C6_witness :
    (analyze_resume_completeness "Education\nSkills".toList "Fresher").1 =
      (analyze_resume_completeness "Education".toList "Fresher").1 +
        weightOf "Fresher" "Skills" ∧
    (analyze_resume_completeness "Education".toList "Fresher").1 ≤
      (analyze_resume_completeness "Education\nSkills".toList "Fresher").1 :=
  C6_score_monotone_insertion "Education".toList "Education\nSkills".toList "Fresher"
    ⟨"Skills", ["Skills", "Technical Skills", "Core Competencies", "Key Skills"],
     "You have added Skills",
     "93% of hiring managers prefer skills-based screening. Add more relevant technical skills."⟩
    (by decide) (by decide) (by decide) (by decide)

end ResumeScoring

namespace ResumeScoring

/-- If any candidate survives validation, `extract_name` returns the first
surviving one. -/
theorem extract_name_of_valid (resume_text n : List Char) (l : List (List Char))
    (h : valid_names resume_text = n :: l) : extract_name resume_text = n := by
  unfold extract_name
  rw [h]

/-- If no candidate survives and the fallback guard passes, `extract_name`
returns the stripped first header line. -/
theorem extract_name_of_fallback (resume_text : List Char)
    (h : valid_names resume_text = []) (hf : fallback_ok resume_text = true) :
    extract_name resume_text = first_line_of resume_text := by
  unfold extract_name
  rw [h]
  simp [hf]

/-- If no candidate survives and the fallback guard fails, `extract_name`
returns the sentinel. -/
theorem extract_name_of_sentinel (resume_text : List Char)
    (h : valid_names resume_text = []) (hf : fallback_ok resume_text = false) :
    extract_name resume_text = "Name not found".toList := by
  unfold extract_name
  rw [h]
  simp [hf]

/-- C2 counterexample: the claim that `extract_name` never returns a
blocklisted or sub-two-token string is false — on the text "Resume" every
candidate fails validation, and the final first-line fallback returns
"Resume" itself: a single token containing the blocklisted substring
"resume". -/
theorem C2_counterexample :
    extract_name "Resume".toList = "Resume".toList ∧
    isSubstring "resume".toList (lowerStr (extract_name "Resume".toList)) = true ∧
    (splitWs (extract_name "Resume".toList)).length = 1 := by
  decide

/-- C2 amended: every name produced by the validated-candidate phase has
at least two tokens and no blocklisted substring; however the final
fallback may return the stripped first header line (guaranteed only to
have at most four tokens, no digit and no `@`) even when it is blocklisted
or a single token, and the sentinel is returned exactly when no candidate
survives validation and the fallback guard also fails. -/
theorem C2_amended_validation_or_fallback (resume_text : List Char) :
    (2 ≤ (splitWs (extract_name resume_text)).length ∧
      ∀ ind ∈ skip_indicators,
        isSubstring ind.toList (lowerStr (extract_name resume_text)) = false) ∨
    (valid_names resume_text = [] ∧
      extract_name resume_text = first_line_of resume_text ∧
      fallback_ok resume_text = true) ∨
    (valid_names resume_text = [] ∧ fallback_ok resume_text = false ∧
      extract_name resume_text = "Name not found".toList) := by
  cases hv : valid_names resume_text with
  | cons n t =>
    left
    have hmemf : n ∈ (name_candidates resume_text).filter validName := by
      have : n ∈ valid_names resume_text := by
        rw [hv]
        exact List.mem_cons_self _ _
      simpa [valid_names] using this
    have hvn : validName n = true := List.of_mem_filter hmemf
    have he : extract_name resume_text = n := extract_name_of_valid resume_text n t hv
    rw [he]
    simp only [validName, Bool.and_eq_true, decide_eq_true_eq, Bool.not_eq_true',
      List.any_eq_false] at hvn
    obtain ⟨⟨⟨hne, hlen⟩, hgt⟩, hblock⟩ := hvn
    exact ⟨hlen, fun ind hind => by simpa using hblock ind hind⟩
  | nil =>
    cases hf : fallback_ok resume_text with
    | true =>
      right; left
      exact ⟨rfl, extract_name_of_fallback resume_text hv hf, rfl⟩
    | false =>
      right; right
      exact ⟨rfl, rfl, extract_name_of_sentinel resume_text hv hf⟩

end ResumeScoring
